import Mathlib

/-!
Verification development for the document-searcher repository
(`document_processor.py`, the TF-IDF based `DocumentProcessor`).

The Python source is shallowly embedded:

* `Document` models a LangChain `Document`: a `page_content` string plus the
  two metadata keys the core writes (`doc_type`, `filename`).
* `TfidfRetriever` models the class of the same name.  The fitted
  scikit-learn vectorizer/matrix pair is abstracted as a similarity oracle
  `SimFn` (given the fitted corpus texts and a query, it yields the cosine
  similarity of the query against every row).  `np.argsort` is an oracle
  `ArgsortFn` constrained only by its output contract `IsArgsortOf`
  (an ascending permutation of the index range): numpy's default
  `kind='quicksort'` is an introsort whose partitioning reorders equal
  elements on arrays longer than 15, so the relative order of tied indices
  is implementation-defined and nothing beyond the contract may be
  assumed.  On arrays of at most 15 elements numpy runs a stable insertion
  sort; `insertionArgsort` is that concrete sort, used for evaluating
  small corpora.  The slice `[-k:]` and reversal `[::-1]` are modelled
  literally.  `TfidfVectorizer.fit_transform` is not total: it raises
  `ValueError` (empty vocabulary) when no corpus text contributes a token
  (blank-page PDF, stop-word-only CSV); `fit_transform` below models this
  with a fixed content-determined predicate `hv : String → Bool` ("this
  text contributes at least one vocabulary feature"), so the fit fails
  exactly when no text of the corpus satisfies it.  Because this raise
  happens inside `process_file`'s `try` *after* the corpus extend and the
  metadata append, that failure path returns `false` with a mutated state
  — the model keeps that behaviour.
* `DocumentProcessor` models the mutable state of the class of the same
  name; Python dicts (`retrievers`, `qa_chains`) become insertion-ordered
  association lists with Python's update semantics (`dictSet`): overwriting
  keeps the key's position, a new key is appended.  Object identity of the
  lazily created QA chains is modelled by a creation counter `chain_gen`:
  each `_create_qa_chain_for_type` call stamps the chain with a fresh
  generation number.
* External effects (file existence, loaders, the LLM router and QA chains)
  are oracles (`Env`, `QueryEnv`); a call that raises is an `Except.error`.
  `query` additionally returns the list of external invocations it
  performed, so that "performs no routing / no retrieval" is expressible.
-/

/-- Model of a LangChain `Document`: the text plus the two metadata keys the
core sets (`doc_type`, `filename`). -/
structure Document where
  page_content : String
  doc_type : Option String := none
  filename : Option String := none
deriving DecidableEq, Inhabited

/-- Similarity oracle abstracting the fitted `TfidfVectorizer` together with
`cosine_similarity`: given the corpus texts the vectorizer was fitted on and
a query string, it returns the flattened vector of cosine similarities of
the query against every corpus row. -/
def SimFn : Type := List String → String → List Rat

/-- Index-comparison relation underlying `insertionArgsort` on the
similarity array `l`: ascending by value, and stably so (equal values keep
their index order) — the order numpy's insertion sort produces on small
arrays. -/
def idxLe (l : List Rat) (i j : Nat) : Prop :=
  l.getD i 0 < l.getD j 0 ∨ (l.getD i 0 = l.getD j 0 ∧ i ≤ j)

instance (l : List Rat) : DecidableRel (idxLe l) := fun i j => by
  unfold idxLe; infer_instance

instance (l : List Rat) : IsTotal Nat (idxLe l) where
  total i j := by
    unfold idxLe
    rcases lt_trichotomy (l.getD i 0) (l.getD j 0) with h | h | h
    · exact Or.inl (Or.inl h)
    · rcases Nat.le_total i j with hij | hij
      · exact Or.inl (Or.inr ⟨h, hij⟩)
      · exact Or.inr (Or.inr ⟨h.symm, hij⟩)
    · exact Or.inr (Or.inl h)

instance (l : List Rat) : IsTrans Nat (idxLe l) where
  trans i j m hij hjm := by
    unfold idxLe at *
    rcases hij with h1 | ⟨e1, le1⟩
    · rcases hjm with h2 | ⟨e2, _⟩
      · exact Or.inl (h1.trans h2)
      · exact Or.inl (e2 ▸ h1)
    · rcases hjm with h2 | ⟨e2, le2⟩
      · exact Or.inl (e1 ▸ h2)
      · exact Or.inr ⟨e1.trans e2, le1.trans le2⟩

/-- Oracle for `np.argsort`: the concrete index order the library returns
for a similarity array.  Its output contract is `IsArgsortOf`; beyond that
the tie order is implementation-defined (numpy's default quicksort is
unstable on arrays longer than 15 elements). -/
def ArgsortFn : Type := List Rat → List Nat

/-- The output contract of `np.argsort(l)` (any sort kind): a permutation
of the indices `0, …, l.length - 1` that is ascending in the array values.
The relative order of indices with equal values is *not* specified. -/
def IsArgsortOf (a : List Nat) (l : List Rat) : Prop :=
  a.Perm (List.range l.length) ∧
  a.Pairwise (fun i j => l.getD i 0 ≤ l.getD j 0)

/-- The stable ascending argsort: the sort numpy's default introsort
actually performs on arrays of at most 15 elements (below the
small-quicksort cutoff it runs insertion sort, which is stable).  Used to
evaluate the retriever on concrete small corpora; larger arrays are only
ever handled through the `IsArgsortOf` contract. -/
def insertionArgsort (l : List Rat) : List Nat :=
  List.insertionSort (idxLe l) (List.range l.length)

/-- Model of the Python slice `a[-k:]`: the last `k` elements, except that
`a[-0:]` is the whole list. -/
def lastSlice (a : List Nat) (k : Nat) : List Nat :=
  if k = 0 then a else a.drop (a.length - k)

/-- The index computation of `TfidfRetriever.get_relevant_documents`:
`np.argsort(similarities)[-k:][::-1]`, with the argsort supplied by the
oracle `srt`. -/
def topIndices (srt : ArgsortFn) (sims : List Rat) (k : Nat) : List Nat :=
  (lastSlice (srt sims) k).reverse

/-- Model of the `TfidfRetriever` instance state: the documents handed to
`__init__`, the per-kind `k`, and the corpus texts the vectorizer was
fitted on (`doc_texts = [doc.page_content for doc in documents]`). -/
structure TfidfRetriever where
  documents : List Document
  k : Nat
  doc_texts : List String
deriving DecidableEq, Inhabited

/-- The record built by a *successful* `TfidfRetriever.__init__(documents,
k)`: the stored documents and `k`, and the corpus texts the vectorizer was
fitted on.  The constructor's `fit_transform` call is not total — it
raises on a token-free corpus — so this record is only ever constructed
after the `fit_transform` model below has succeeded (see
`rebuild_retriever`, the sole construction site). -/
def TfidfRetriever.init (documents : List Document) (k : Nat) : TfidfRetriever :=
  { documents := documents
    k := k
    doc_texts := documents.map (fun d => d.page_content) }

/-- Model of `TfidfVectorizer.fit_transform` on the corpus texts, keeping
only its success/failure behaviour (the fitted weights are abstracted by
`SimFn`): given the fixed content-determined predicate `hv t` ("text `t`
contributes at least one vocabulary feature", determined by sklearn's
tokenizer and stop-word list), the fit raises
`ValueError: empty vocabulary` exactly when no text contributes a feature
— which also covers the undefined fit over an empty corpus. -/
def fit_transform (hv : String → Bool) (texts : List String) :
    Except String Unit :=
  if texts.all (fun t => !hv t) then
    Except.error "empty vocabulary; perhaps the documents only contain stop words"
  else Except.ok ()

/-- Model of `TfidfRetriever.get_relevant_documents(query)`:
compute the similarity of the query against every fitted row, then return
`[self.documents[i] for i in np.argsort(similarities)[-self.k:][::-1]]`,
with the argsort order supplied by the oracle `srt`. -/
def TfidfRetriever.get_relevant_documents (sim : SimFn) (srt : ArgsortFn)
    (r : TfidfRetriever) (query : String) : List Document :=
  let similarities := sim r.doc_texts query
  let top_indices := topIndices srt similarities r.k
  top_indices.map (fun i => r.documents.getD i default)

example : insertionArgsort [(1 : Rat), 1] = [0, 1] := by decide
example : topIndices insertionArgsort [(1 : Rat), 1] 2 = [1, 0] := by decide
example : topIndices insertionArgsort [(1 : Rat), 0, 0] 2 = [0, 2] := by decide

/-- The three document kinds handled by the processor
(the keys of `documents_by_type` / `document_metadata`). -/
inductive DocType where
  | pdf
  | docx
  | csv
deriving DecidableEq, Inhabited

/-- The string naming a kind (the dict key used in the Python source). -/
def kindStr : DocType → String
  | .pdf => "pdf"
  | .docx => "docx"
  | .csv => "csv"

/-- The per-kind retrieval depth chosen by `_rebuild_retriever`:
`k = 10 if doc_type == 'csv' else 5`. -/
def kFor (doc_type : DocType) : Nat :=
  if doc_type = DocType.csv then 10 else 5

/-- Lookup in an insertion-ordered dict modelled as an association list. -/
def dictGet {κ β : Type} [DecidableEq κ] (l : List (κ × β)) (key : κ) : Option β :=
  match l with
  | [] => none
  | p :: ps => if p.1 = key then some p.2 else dictGet ps key

/-- Python-dict assignment `d[key] = v`: overwriting an existing key keeps
its position, a new key is appended at the end. -/
def dictSet {κ β : Type} [DecidableEq κ] (l : List (κ × β)) (key : κ) (v : β) :
    List (κ × β) :=
  match l with
  | [] => [(key, v)]
  | p :: ps => if p.1 = key then (key, v) :: ps else p :: dictSet ps key v

/-- Pointwise update of a per-kind table. -/
def setKind {α : Type} (f : DocType → α) (key : DocType) (v : α) : DocType → α :=
  fun t => if t = key then v else f t

instance {ε α : Type} [DecidableEq ε] [DecidableEq α] : DecidableEq (Except ε α) :=
  fun a b =>
    match a, b with
    | .error e, .error f =>
      if h : e = f then isTrue (by rw [h])
      else isFalse (by intro hh; cases hh; exact h rfl)
    | .error _, .ok _ => isFalse (by intro h; cases h)
    | .ok _, .error _ => isFalse (by intro h; cases h)
    | .ok x, .ok y =>
      if h : x = y then isTrue (by rw [h])
      else isFalse (by intro hh; cases hh; exact h rfl)

/-- Model of Python's `str.split(sep)` for a one-character separator, on the
character list of a string (splitting `""` yields `[""]`, as in Python). -/
def splitOnChar (sep : Char) (cs : List Char) : List (List Char) :=
  match cs with
  | [] => [[]]
  | x :: xs =>
    let rest := splitOnChar sep xs
    if x = sep then [] :: rest
    else
      match rest with
      | [] => [[x]]
      | g :: gs => (x :: g) :: gs

/-- Model of Python's `str.lower()` on ASCII characters. -/
def charLower (c : Char) : Char :=
  if 'A' ≤ c ∧ c ≤ 'Z' then Char.ofNat (c.toNat + 32) else c

/-- Model of Python's `str.lower()`. -/
def strLower (s : String) : String :=
  ⟨s.data.map charLower⟩

/-- Model of `DocumentProcessor._get_loader_for_file`: resolve the kind from
`filepath.split('.')[-1].lower()`, raising
`ValueError(f"Unsupported file extension: {ext}")` (the spec's
`UnsupportedKindError`) for an unrecognised extension.  The loader object
itself is opaque; only the resolved kind matters to the core. -/
def get_loader_for_file (filepath : String) : Except String DocType :=
  let ext := strLower ⟨(splitOnChar '.' filepath.data).getLastD []⟩
  if ext = "pdf" then Except.ok DocType.pdf
  else if ext = "docx" then Except.ok DocType.docx
  else if ext = "csv" then Except.ok DocType.csv
  else Except.error ("Unsupported file extension: " ++ ext)

/-- Model of `os.path.basename` on POSIX paths. -/
def basename (filepath : String) : String :=
  ⟨(splitOnChar '/' filepath.data).getLastD []⟩

/-- The metadata stamping loop of `process_file`: every loaded document gets
`metadata['doc_type']` and `metadata['filename']`. -/
def tagDocs (docs : List Document) (doc_type : DocType) (filename : String) :
    List Document :=
  docs.map (fun d =>
    { d with doc_type := some (kindStr doc_type), filename := some filename })

/-- External-world oracle for ingestion: `os.path.exists`, the kind-specific
`loader.load()` (an `Except.error` models a raised parsing exception), and
`glob.glob(f"{directory}/*.{ext}")`. -/
structure Env where
  exists_file : String → Bool
  load : String → Except String (List Document)
  glob : String → String → List String

/-- Model of the `DocumentProcessor` state after `__init__` (the LLM handle
is external; `router_chain` is a presence flag; `chain_gen` is the creation
counter stamping QA-chain objects to model Python object identity). -/
structure DocumentProcessor where
  document_metadata : DocType → List String
  documents_by_type : DocType → List Document
  retrievers : List (DocType × TfidfRetriever)
  qa_chains : List (DocType × Nat)
  router_chain : Bool
  chain_gen : Nat

/-- The state built by `DocumentProcessor.__init__`: empty per-kind tables,
no retrievers, no QA chains, no router. -/
def initState : DocumentProcessor where
  document_metadata := fun _ => []
  documents_by_type := fun _ => []
  retrievers := []
  qa_chains := []
  router_chain := false
  chain_gen := 0

/-- Model of `DocumentProcessor._create_qa_chain_for_type`: unconditionally
assigns a freshly constructed chain object to `qa_chains[doc_type]`
(the new object is stamped with the current creation counter). -/
def create_qa_chain_for_type (st : DocumentProcessor) (doc_type : DocType) :
    DocumentProcessor :=
  { st with
    qa_chains := dictSet st.qa_chains doc_type st.chain_gen
    chain_gen := st.chain_gen + 1 }

/-- Model of `DocumentProcessor._rebuild_retriever`: return early when the
kind's corpus is empty; otherwise run the `TfidfRetriever` constructor,
whose `fit_transform` may raise — the raise (`Except.error`) happens
*before* the assignment to `retrievers[doc_type]`, so on failure neither
the retriever nor the QA chain is touched and the exception propagates to
`process_file`'s handler.  On success the freshly fitted retriever is
stored and the kind's QA chain is (re)created. -/
def rebuild_retriever (hv : String → Bool) (st : DocumentProcessor)
    (doc_type : DocType) : Except String DocumentProcessor :=
  let docs := st.documents_by_type doc_type
  if docs = [] then Except.ok st
  else
    match fit_transform hv (docs.map (fun d => d.page_content)) with
    | Except.error e => Except.error e
    | Except.ok _ =>
      Except.ok (create_qa_chain_for_type
        { st with
          retrievers :=
            dictSet st.retrievers doc_type
              (TfidfRetriever.init docs (kFor doc_type)) }
        doc_type)

/-- Model of the idempotent guard `if not self.router_chain:
self.create_router()` (`create_router` builds the prompt/LLM binding; the
state records only its presence). -/
def ensure_router (st : DocumentProcessor) : DocumentProcessor :=
  if st.router_chain then st else { st with router_chain := true }

/-- The first two mutations of `process_file`'s `try` block after a
successful `loader.load()`: stamp metadata onto the loaded documents,
extend the kind's corpus with them, and record the filename if it is
new. -/
def extendState (st : DocumentProcessor) (doc_type : DocType)
    (rawDocs : List Document) (filename : String) : DocumentProcessor :=
  let docs := tagDocs rawDocs doc_type filename
  let st1 := { st with
    documents_by_type :=
      setKind st.documents_by_type doc_type
        (st.documents_by_type doc_type ++ docs) }
  if filename ∈ st1.document_metadata doc_type then st1
  else { st1 with
    document_metadata :=
      setKind st1.document_metadata doc_type
        (st1.document_metadata doc_type ++ [filename]) }

/-- The whole body of `process_file`'s `try` block after a successful
`loader.load()`: extend the state (`extendState`), rebuild the kind's
retriever, and lazily create the router.  If the rebuild's
`fit_transform` raises, the exception is caught by `process_file`'s
handler *after* the corpus extend and the metadata append: the call
returns `false` with that mutated state, no retriever stored, no chain
created and the router not ensured. -/
def ingestStep (hv : String → Bool) (st : DocumentProcessor)
    (doc_type : DocType) (rawDocs : List Document) (filename : String) :
    DocumentProcessor × Bool :=
  let st2 := extendState st doc_type rawDocs filename
  match rebuild_retriever hv st2 doc_type with
  | Except.error _ => (st2, false)
  | Except.ok st3 => (ensure_router st3, true)

/-- Model of `DocumentProcessor.process_file`: returns the successor state
and the boolean result.  An unsupported extension or a loader failure
raises before any mutation, so those caught exceptions leave the state
unchanged; a `fit_transform` failure inside the rebuild raises after the
corpus extend and metadata append, so that caught exception returns
`false` with the mutated state (see `ingestStep`). -/
def process_file (hv : String → Bool) (env : Env) (st : DocumentProcessor)
    (filepath : String) : DocumentProcessor × Bool :=
  if env.exists_file filepath = false then (st, false)
  else
    match get_loader_for_file filepath with
    | Except.error _ => (st, false)
    | Except.ok doc_type =>
      match env.load filepath with
      | Except.error _ => (st, false)
      | Except.ok rawDocs =>
        ingestStep hv st doc_type rawDocs (basename filepath)

/-- Sequential ingestion of a batch of files, counting successes: the loop
of `app.py`'s upload handler and the inner loop of `load_documents`. -/
def processFiles (hv : String → Bool) (env : Env) (st : DocumentProcessor)
    (files : List String) : DocumentProcessor × Nat :=
  match files with
  | [] => (st, 0)
  | f :: fs =>
    let r := process_file hv env st f
    let rest := processFiles hv env r.1 fs
    (rest.1, (if r.2 then 1 else 0) + rest.2)

/-- Model of `DocumentProcessor.load_documents`: missing directory yields
zero counts (after `makedirs`, a pure effect); otherwise process the globbed
files of each supported extension in order. -/
def load_documents (hv : String → Bool) (env : Env) (st : DocumentProcessor)
    (directory : String) : DocumentProcessor × (Nat × Nat × Nat) :=
  if env.exists_file directory = false then (st, (0, 0, 0))
  else
    let rPdf := processFiles hv env st (env.glob directory "pdf")
    let rDocx := processFiles hv env rPdf.1 (env.glob directory "docx")
    let rCsv := processFiles hv env rDocx.1 (env.glob directory "csv")
    (rCsv.1, (rPdf.2, rDocx.2, rCsv.2))

/-- Result dict of `DocumentProcessor.query`: `{'success': True, 'answer',
'doc_type', 'question'}` or `{'success': False, 'error'}`. -/
inductive QueryResult where
  | ok (answer doc_type question : String)
  | err (error : String)
deriving DecidableEq

/-- External invocations performed by `query`, in order: the router chain
and a QA chain (the latter performs the retrieval). -/
inductive QueryEvent where
  | routerInvoke (question : String)
  | chainInvoke (doc_type : DocType) (question : String)
deriving DecidableEq

/-- LLM-side oracle for `query`: the router chain's output and each QA
chain's answer for a question (`Except.error` models a raised exception). -/
structure QueryEnv where
  router : String → Except String String
  chain : DocType → String → Except String String

/-- The structured failure returned when no QA chain exists yet. -/
def notInitializedMsg : String :=
  "No documents loaded. Please upload documents first."

/-- Whitespace characters stripped by Python's `str.strip()`. -/
def isPySpace (c : Char) : Bool :=
  c = ' ' || c = '\t' || c = '\n' || c = '\r' || c = '\x0b' || c = '\x0c'

/-- Model of Python's `str.strip()`. -/
def strStrip (s : String) : String :=
  ⟨(((s.data.dropWhile isPySpace).reverse.dropWhile isPySpace).reverse)⟩

/-- Model of `.strip().lower()` applied to the router output. -/
def normalizeToken (s : String) : String := strLower (strStrip s)

/-- The dispatch step of `query`: use the routed token's chain when one
exists (`doc_type in self.qa_chains`), otherwise fall back to
`list(self.qa_chains.keys())[0]`, the first key in insertion order.  The
`headD` default is unreachable: `query` only dispatches when `qa_chains` is
nonempty. -/
def dispatchKind (st : DocumentProcessor) (token : String) : DocType :=
  match st.qa_chains.find? (fun p => decide (kindStr p.1 = token)) with
  | some p => p.1
  | none => (st.qa_chains.headD (DocType.pdf, 0)).1

/-- Model of `DocumentProcessor.query`: returns the successor state (the
router may be lazily created), the structured result, and the trace of
external invocations performed. -/
def query (qenv : QueryEnv) (st : DocumentProcessor) (question : String) :
    DocumentProcessor × QueryResult × List QueryEvent :=
  if st.qa_chains = [] then (st, QueryResult.err notInitializedMsg, [])
  else
    let st1 := ensure_router st
    match qenv.router question with
    | Except.error e =>
        (st1, QueryResult.err e, [QueryEvent.routerInvoke question])
    | Except.ok raw =>
      let token := normalizeToken raw
      let chosen := dispatchKind st1 token
      match qenv.chain chosen question with
      | Except.error e =>
          (st1, QueryResult.err e,
           [QueryEvent.routerInvoke question, QueryEvent.chainInvoke chosen question])
      | Except.ok answer =>
          (st1, QueryResult.ok answer (kindStr chosen) question,
           [QueryEvent.routerInvoke question, QueryEvent.chainInvoke chosen question])

/-- Model of `DocumentProcessor.get_document_count`: the per-kind number of
stored metadata entries (distinct ingested filenames). -/
def get_document_count (st : DocumentProcessor) : DocType → Nat :=
  fun doc_type => (st.document_metadata doc_type).length

/-- Model of `DocumentProcessor.get_total_document_count`: the sum of the
per-kind counts. -/
def get_total_document_count (st : DocumentProcessor) : Nat :=
  get_document_count st DocType.pdf + get_document_count st DocType.docx +
    get_document_count st DocType.csv

/-- States reachable from a freshly constructed `DocumentProcessor` by the
state-mutating operations (`process_file`, possibly batched, and `query`).
The vocabulary predicate `hv` is fixed across steps — sklearn's tokenizer
and stop-word list do not change during the process lifetime — while the
file-system/loader oracle `env` may differ from call to call. -/
inductive Reachable (hv : String → Bool) : DocumentProcessor → Prop where
  | init : Reachable hv initState
  | step_process (env : Env) (st : DocumentProcessor) (fp : String) :
      Reachable hv st → Reachable hv (process_file hv env st fp).1
  | step_query (qenv : QueryEnv) (st : DocumentProcessor) (q : String) :
      Reachable hv st → Reachable hv (query qenv st q).1

example : get_loader_for_file "a.pdf" = Except.ok DocType.pdf := by decide
example : get_loader_for_file "dir/b.PDF" = Except.ok DocType.pdf := by decide
example : get_loader_for_file "notes.txt" =
    Except.error "Unsupported file extension: txt" := by decide
example : basename "uploads/a.pdf" = "a.pdf" := by decide

/-! ## Dictionary and table lemmas -/

theorem dictGet_dictSet_self {κ β : Type} [DecidableEq κ]
    (l : List (κ × β)) (key : κ) (v : β) :
    dictGet (dictSet l key v) key = some v := by
  induction l with
  | nil => simp [dictGet, dictSet]
  | cons p ps ih =>
    by_cases h : p.1 = key
    · simp [dictGet, dictSet, h]
    · simp [dictGet, dictSet, h, ih]

theorem dictGet_dictSet_ne {κ β : Type} [DecidableEq κ]
    (l : List (κ × β)) (key key' : κ) (v : β) (h : key' ≠ key) :
    dictGet (dictSet l key v) key' = dictGet l key' := by
  induction l with
  | nil => simp [dictGet, dictSet, Ne.symm h]
  | cons p ps ih =>
    by_cases hp : p.1 = key
    · simp [dictGet, dictSet, hp, Ne.symm h]
    · by_cases hp' : p.1 = key'
      · simp [dictGet, dictSet, hp, hp', h]
      · simp [dictGet, dictSet, hp, hp', ih]

theorem setKind_self {α : Type} (f : DocType → α) (key : DocType) (v : α) :
    setKind f key v key = v := by simp [setKind]

theorem setKind_ne {α : Type} (f : DocType → α) (key t : DocType) (v : α)
    (h : t ≠ key) : setKind f key v t = f t := by simp [setKind, h]

/-! ## Structure of an ingestion step -/

theorem fit_transform_ok_iff (hv : String → Bool) (texts : List String) :
    fit_transform hv texts = Except.ok () ↔ ∃ t ∈ texts, hv t = true := by
  unfold fit_transform
  by_cases hb : texts.all (fun t => !hv t) = true
  · rw [if_pos hb]
    constructor
    · intro h; exact Except.noConfusion h
    · rintro ⟨t, ht, hvt⟩
      have := List.all_eq_true.mp hb t ht
      rw [hvt] at this
      cases this
  · rw [if_neg hb]
    constructor
    · intro _
      rw [List.all_eq_true] at hb
      push_neg at hb
      obtain ⟨t, ht, hnt⟩ := hb
      refine ⟨t, ht, ?_⟩
      cases hv' : hv t
      · rw [hv'] at hnt; exact absurd rfl hnt
      · rfl
    · intro _; rfl

theorem ensure_router_fields (st : DocumentProcessor) :
    (ensure_router st).documents_by_type = st.documents_by_type ∧
    (ensure_router st).document_metadata = st.document_metadata ∧
    (ensure_router st).retrievers = st.retrievers ∧
    (ensure_router st).qa_chains = st.qa_chains ∧
    (ensure_router st).chain_gen = st.chain_gen := by
  unfold ensure_router
  split <;> exact ⟨rfl, rfl, rfl, rfl, rfl⟩

theorem rebuild_retriever_empty (hv : String → Bool) (st : DocumentProcessor)
    (doc_type : DocType) (h : st.documents_by_type doc_type = []) :
    rebuild_retriever hv st doc_type = Except.ok st := by
  unfold rebuild_retriever
  rw [if_pos h]

theorem rebuild_retriever_fail (hv : String → Bool) (st : DocumentProcessor)
    (doc_type : DocType) (e : String)
    (h : st.documents_by_type doc_type ≠ [])
    (hfit : fit_transform hv
      ((st.documents_by_type doc_type).map (fun d => d.page_content)) =
      Except.error e) :
    rebuild_retriever hv st doc_type = Except.error e := by
  unfold rebuild_retriever
  rw [if_neg h, hfit]

theorem rebuild_retriever_spec (hv : String → Bool) (st : DocumentProcessor)
    (doc_type : DocType)
    (h : st.documents_by_type doc_type ≠ [])
    (hfit : fit_transform hv
      ((st.documents_by_type doc_type).map (fun d => d.page_content)) =
      Except.ok ()) :
    rebuild_retriever hv st doc_type =
      Except.ok { st with
        retrievers := dictSet st.retrievers doc_type
          (TfidfRetriever.init (st.documents_by_type doc_type) (kFor doc_type))
        qa_chains := dictSet st.qa_chains doc_type st.chain_gen
        chain_gen := st.chain_gen + 1 } := by
  unfold rebuild_retriever create_qa_chain_for_type
  rw [if_neg h, hfit]

theorem extendState_fields (st : DocumentProcessor) (doc_type : DocType)
    (rawDocs : List Document) (filename : String) :
    (extendState st doc_type rawDocs filename).documents_by_type =
      setKind st.documents_by_type doc_type
        (st.documents_by_type doc_type ++ tagDocs rawDocs doc_type filename) ∧
    (extendState st doc_type rawDocs filename).document_metadata =
      (if filename ∈ st.document_metadata doc_type then st.document_metadata
       else setKind st.document_metadata doc_type
         (st.document_metadata doc_type ++ [filename])) ∧
    (extendState st doc_type rawDocs filename).retrievers = st.retrievers ∧
    (extendState st doc_type rawDocs filename).qa_chains = st.qa_chains ∧
    (extendState st doc_type rawDocs filename).router_chain = st.router_chain ∧
    (extendState st doc_type rawDocs filename).chain_gen = st.chain_gen := by
  unfold extendState
  split <;> simp_all

/-- Field-level description of `ingestStep` when the extended corpus is
nonempty and its fit succeeds: the call returns `true`, the kind's corpus
is the old one followed by the newly tagged units, the filename list grows
only if the name is new, the retriever is refit over the full extended
corpus, and the QA chain is re-created with a fresh generation stamp. -/
theorem ingestStep_spec (hv : String → Bool) (st : DocumentProcessor)
    (doc_type : DocType) (rawDocs : List Document) (filename : String)
    (h : st.documents_by_type doc_type ++ tagDocs rawDocs doc_type filename ≠ [])
    (hfit : fit_transform hv
      ((st.documents_by_type doc_type ++ tagDocs rawDocs doc_type filename).map
        (fun d => d.page_content)) = Except.ok ()) :
    (ingestStep hv st doc_type rawDocs filename).2 = true ∧
    (ingestStep hv st doc_type rawDocs filename).1.documents_by_type =
      setKind st.documents_by_type doc_type
        (st.documents_by_type doc_type ++ tagDocs rawDocs doc_type filename) ∧
    (ingestStep hv st doc_type rawDocs filename).1.document_metadata =
      (if filename ∈ st.document_metadata doc_type then st.document_metadata
       else setKind st.document_metadata doc_type
         (st.document_metadata doc_type ++ [filename])) ∧
    (ingestStep hv st doc_type rawDocs filename).1.retrievers =
      dictSet st.retrievers doc_type
        (TfidfRetriever.init
          (st.documents_by_type doc_type ++ tagDocs rawDocs doc_type filename)
          (kFor doc_type)) ∧
    (ingestStep hv st doc_type rawDocs filename).1.qa_chains =
      dictSet st.qa_chains doc_type st.chain_gen ∧
    (ingestStep hv st doc_type rawDocs filename).1.chain_gen = st.chain_gen + 1 := by
  obtain ⟨hdoc, hmeta, hret, hqa, hrouter, hgen⟩ :=
    extendState_fields st doc_type rawDocs filename
  have hd2 : (extendState st doc_type rawDocs filename).documents_by_type doc_type =
      st.documents_by_type doc_type ++ tagDocs rawDocs doc_type filename := by
    rw [hdoc, setKind_self]
  have hreb := rebuild_retriever_spec hv (extendState st doc_type rawDocs filename)
    doc_type (by rw [hd2]; exact h) (by rw [hd2]; exact hfit)
  have hstep : ingestStep hv st doc_type rawDocs filename =
      (ensure_router { extendState st doc_type rawDocs filename with
        retrievers := dictSet (extendState st doc_type rawDocs filename).retrievers
          doc_type (TfidfRetriever.init
            ((extendState st doc_type rawDocs filename).documents_by_type doc_type)
            (kFor doc_type))
        qa_chains := dictSet (extendState st doc_type rawDocs filename).qa_chains
          doc_type (extendState st doc_type rawDocs filename).chain_gen
        chain_gen := (extendState st doc_type rawDocs filename).chain_gen + 1 },
       true) := by
    unfold ingestStep
    simp only [hreb]
  obtain ⟨edoc, emeta, eret, eqas, egen⟩ := ensure_router_fields
    { extendState st doc_type rawDocs filename with
      retrievers := dictSet (extendState st doc_type rawDocs filename).retrievers
        doc_type (TfidfRetriever.init
          ((extendState st doc_type rawDocs filename).documents_by_type doc_type)
          (kFor doc_type))
      qa_chains := dictSet (extendState st doc_type rawDocs filename).qa_chains
        doc_type (extendState st doc_type rawDocs filename).chain_gen
      chain_gen := (extendState st doc_type rawDocs filename).chain_gen + 1 }
  refine ⟨by rw [hstep], ?_, ?_, ?_, ?_, ?_⟩
  · rw [hstep]
    show (ensure_router _).documents_by_type = _
    rw [edoc]
    exact hdoc
  · rw [hstep]
    show (ensure_router _).document_metadata = _
    rw [emeta]
    exact hmeta
  · rw [hstep]
    show (ensure_router _).retrievers = _
    rw [eret]
    show dictSet (extendState st doc_type rawDocs filename).retrievers doc_type
        (TfidfRetriever.init
          ((extendState st doc_type rawDocs filename).documents_by_type doc_type)
          (kFor doc_type)) = _
    rw [hret, hd2]
  · rw [hstep]
    show (ensure_router _).qa_chains = _
    rw [eqas]
    show dictSet (extendState st doc_type rawDocs filename).qa_chains doc_type
        (extendState st doc_type rawDocs filename).chain_gen = _
    rw [hqa, hgen]
  · rw [hstep]
    show (ensure_router _).chain_gen = _
    rw [egen]
    show (extendState st doc_type rawDocs filename).chain_gen + 1 = _
    rw [hgen]

/-- Field-level description of `ingestStep` when the extended corpus is
nonempty but its fit raises (empty vocabulary): the call returns `false`
with the corpus already extended and the filename possibly recorded, while
retrievers, chains, the creation counter and the router flag are all left
as they were. -/
theorem ingestStep_fit_fail (hv : String → Bool) (st : DocumentProcessor)
    (doc_type : DocType) (rawDocs : List Document) (filename : String)
    (e : String)
    (h : st.documents_by_type doc_type ++ tagDocs rawDocs doc_type filename ≠ [])
    (hfit : fit_transform hv
      ((st.documents_by_type doc_type ++ tagDocs rawDocs doc_type filename).map
        (fun d => d.page_content)) = Except.error e) :
    (ingestStep hv st doc_type rawDocs filename).2 = false ∧
    (ingestStep hv st doc_type rawDocs filename).1.documents_by_type =
      setKind st.documents_by_type doc_type
        (st.documents_by_type doc_type ++ tagDocs rawDocs doc_type filename) ∧
    (ingestStep hv st doc_type rawDocs filename).1.document_metadata =
      (if filename ∈ st.document_metadata doc_type then st.document_metadata
       else setKind st.document_metadata doc_type
         (st.document_metadata doc_type ++ [filename])) ∧
    (ingestStep hv st doc_type rawDocs filename).1.retrievers = st.retrievers ∧
    (ingestStep hv st doc_type rawDocs filename).1.qa_chains = st.qa_chains ∧
    (ingestStep hv st doc_type rawDocs filename).1.chain_gen = st.chain_gen ∧
    (ingestStep hv st doc_type rawDocs filename).1.router_chain =
      st.router_chain := by
  obtain ⟨hdoc, hmeta, hret, hqa, hrouter, hgen⟩ :=
    extendState_fields st doc_type rawDocs filename
  have hd2 : (extendState st doc_type rawDocs filename).documents_by_type doc_type =
      st.documents_by_type doc_type ++ tagDocs rawDocs doc_type filename := by
    rw [hdoc, setKind_self]
  have hreb := rebuild_retriever_fail hv (extendState st doc_type rawDocs filename)
    doc_type e (by rw [hd2]; exact h) (by rw [hd2]; exact hfit)
  have hstep : ingestStep hv st doc_type rawDocs filename =
      (extendState st doc_type rawDocs filename, false) := by
    unfold ingestStep
    simp only [hreb]
  rw [hstep]
  exact ⟨rfl, hdoc, hmeta, hret, hqa, hgen, hrouter⟩

/-- Field-level description of `ingestStep` in the degenerate case where
even the extended corpus is empty (nothing was loaded into an empty kind):
the call still returns `true` and only the metadata list and the router
flag can change. -/
theorem ingestStep_empty (hv : String → Bool) (st : DocumentProcessor)
    (doc_type : DocType) (rawDocs : List Document) (filename : String)
    (h : st.documents_by_type doc_type ++ tagDocs rawDocs doc_type filename = []) :
    (ingestStep hv st doc_type rawDocs filename).2 = true ∧
    (ingestStep hv st doc_type rawDocs filename).1.documents_by_type =
      st.documents_by_type ∧
    (ingestStep hv st doc_type rawDocs filename).1.retrievers = st.retrievers ∧
    (ingestStep hv st doc_type rawDocs filename).1.qa_chains = st.qa_chains ∧
    (ingestStep hv st doc_type rawDocs filename).1.chain_gen = st.chain_gen := by
  obtain ⟨hdoc, hmeta, hret, hqa, hrouter, hgen⟩ :=
    extendState_fields st doc_type rawDocs filename
  have hold : st.documents_by_type doc_type = [] := by
    rcases List.append_eq_nil.mp h with ⟨h1, _⟩
    exact h1
  have hfun : setKind st.documents_by_type doc_type
      (st.documents_by_type doc_type ++ tagDocs rawDocs doc_type filename) =
      st.documents_by_type := by
    funext t
    by_cases ht : t = doc_type
    · subst ht; rw [setKind_self, h, hold]
    · rw [setKind_ne _ _ _ _ ht]
  have hdoc' : (extendState st doc_type rawDocs filename).documents_by_type =
      st.documents_by_type := by rw [hdoc, hfun]
  have hd2 : (extendState st doc_type rawDocs filename).documents_by_type doc_type
      = [] := by rw [hdoc', hold]
  have hreb := rebuild_retriever_empty hv (extendState st doc_type rawDocs filename)
    doc_type hd2
  have hstep : ingestStep hv st doc_type rawDocs filename =
      (ensure_router (extendState st doc_type rawDocs filename), true) := by
    unfold ingestStep
    simp only [hreb]
  obtain ⟨edoc, emeta, eret, eqas, egen⟩ :=
    ensure_router_fields (extendState st doc_type rawDocs filename)
  rw [hstep]
  refine ⟨rfl, ?_, ?_, ?_, ?_⟩
  · rw [edoc, hdoc']
  · rw [eret, hret]
  · rw [eqas, hqa]
  · rw [egen, hgen]

/-- A successful `ingestStep` over a nonempty extended corpus implies its
fit succeeded. -/
theorem ingestStep_success_fit (hv : String → Bool) (st : DocumentProcessor)
    (doc_type : DocType) (rawDocs : List Document) (filename : String)
    (h : st.documents_by_type doc_type ++ tagDocs rawDocs doc_type filename ≠ [])
    (hs : (ingestStep hv st doc_type rawDocs filename).2 = true) :
    fit_transform hv
      ((st.documents_by_type doc_type ++ tagDocs rawDocs doc_type filename).map
        (fun d => d.page_content)) = Except.ok () := by
  cases hfit : fit_transform hv
      ((st.documents_by_type doc_type ++ tagDocs rawDocs doc_type filename).map
        (fun d => d.page_content)) with
  | error e =>
    have hfalse := (ingestStep_fit_fail hv st doc_type rawDocs filename e h hfit).1
    rw [hs] at hfalse
    cases hfalse
  | ok u => cases u; rfl

/-! ## `process_file` case analysis -/

theorem process_file_not_exists (hv : String → Bool) (env : Env)
    (st : DocumentProcessor) (fp : String)
    (h : env.exists_file fp = false) : process_file hv env st fp = (st, false) := by
  simp [process_file, h]

theorem process_file_unsupported (hv : String → Bool) (env : Env)
    (st : DocumentProcessor) (fp : String)
    (e : String) (hex : env.exists_file fp = true)
    (h : get_loader_for_file fp = Except.error e) :
    process_file hv env st fp = (st, false) := by
  simp [process_file, hex, h]

theorem process_file_load_error (hv : String → Bool) (env : Env)
    (st : DocumentProcessor) (fp : String)
    (doc_type : DocType) (e : String) (hex : env.exists_file fp = true)
    (hk : get_loader_for_file fp = Except.ok doc_type)
    (h : env.load fp = Except.error e) :
    process_file hv env st fp = (st, false) := by
  simp [process_file, hex, hk, h]

theorem process_file_ok (hv : String → Bool) (env : Env)
    (st : DocumentProcessor) (fp : String)
    (doc_type : DocType) (rawDocs : List Document)
    (hex : env.exists_file fp = true)
    (hk : get_loader_for_file fp = Except.ok doc_type)
    (hl : env.load fp = Except.ok rawDocs) :
    process_file hv env st fp = ingestStep hv st doc_type rawDocs (basename fp) := by
  simp [process_file, hex, hk, hl]

/-! ## The reachable-state invariant -/

/-- The maintained invariant of the processor state: every stored retriever
is exactly the one fitted over the kind's full current corpus (which is
nonempty and has at least one vocabulary-bearing text, since its fit once
succeeded and the corpus only grows); every QA chain belongs to such a
kind; and every QA chain's generation stamp is older than the creation
counter. -/
def StateInv (hv : String → Bool) (st : DocumentProcessor) : Prop :=
  (∀ K r, dictGet st.retrievers K = some r →
      st.documents_by_type K ≠ [] ∧
      r = TfidfRetriever.init (st.documents_by_type K) (kFor K) ∧
      (st.documents_by_type K).any (fun d => hv d.page_content) = true) ∧
  (∀ K g, dictGet st.qa_chains K = some g →
      st.documents_by_type K ≠ [] ∧ g < st.chain_gen ∧
      (st.documents_by_type K).any (fun d => hv d.page_content) = true)

theorem stateInv_init (hv : String → Bool) : StateInv hv initState := by
  constructor <;> intro K x h <;> simp [initState, dictGet] at h

theorem stateInv_ingestStep (hv : String → Bool) (st : DocumentProcessor)
    (doc_type : DocType) (rawDocs : List Document) (filename : String)
    (h : StateInv hv st) :
    StateInv hv (ingestStep hv st doc_type rawDocs filename).1 := by
  obtain ⟨h1, h2⟩ := h
  by_cases hc : st.documents_by_type doc_type ++ tagDocs rawDocs doc_type filename = []
  · obtain ⟨_, hdocs, hret, hqa, hgen⟩ :=
      ingestStep_empty hv st doc_type rawDocs filename hc
    constructor
    · intro K r hr; rw [hret] at hr; rw [hdocs]; exact h1 K r hr
    · intro K g hg; rw [hqa] at hg; rw [hdocs, hgen]; exact h2 K g hg
  · cases hfit : fit_transform hv
        ((st.documents_by_type doc_type ++ tagDocs rawDocs doc_type filename).map
          (fun d => d.page_content)) with
    | error e =>
      obtain ⟨_, hdocs, _, hret, hqa, hgen, _⟩ :=
        ingestStep_fit_fail hv st doc_type rawDocs filename e hc hfit
      -- a fit failure over the extended corpus is impossible for a kind
      -- that already has a retriever or chain: its earlier successful fit
      -- means some old text bears vocabulary, which the extension keeps
      have hcontra : (st.documents_by_type doc_type).any
          (fun d => hv d.page_content) = true → False := by
        intro hany
        obtain ⟨d, hd, hvd⟩ := List.any_eq_true.mp hany
        have hok : fit_transform hv
            ((st.documents_by_type doc_type ++
              tagDocs rawDocs doc_type filename).map (fun d => d.page_content)) =
            Except.ok () :=
          (fit_transform_ok_iff hv _).mpr
            ⟨d.page_content,
             List.mem_map_of_mem _ (List.mem_append_left _ hd), hvd⟩
        rw [hok] at hfit
        cases hfit
      constructor
      · intro K r hr
        rw [hret] at hr
        obtain ⟨hne1, heq, hany⟩ := h1 K r hr
        by_cases hK : K = doc_type
        · subst hK; exact absurd hany (fun ha => hcontra ha)
        · rw [hdocs, setKind_ne _ _ _ _ hK]
          exact ⟨hne1, heq, hany⟩
      · intro K g hg
        rw [hqa] at hg
        obtain ⟨hne1, hlt, hany⟩ := h2 K g hg
        by_cases hK : K = doc_type
        · subst hK; exact absurd hany (fun ha => hcontra ha)
        · rw [hdocs, hgen, setKind_ne _ _ _ _ hK]
          exact ⟨hne1, hlt, hany⟩
    | ok u =>
      cases u
      obtain ⟨_, hdocs, _, hret, hqa, hgen⟩ :=
        ingestStep_spec hv st doc_type rawDocs filename hc hfit
      have hany : (st.documents_by_type doc_type ++
          tagDocs rawDocs doc_type filename).any
          (fun d => hv d.page_content) = true := by
        obtain ⟨t, ht, hvt⟩ := (fit_transform_ok_iff hv _).mp hfit
        obtain ⟨d, hd, rfl⟩ := List.mem_map.mp ht
        exact List.any_eq_true.mpr ⟨d, hd, hvt⟩
      constructor
      · intro K r hr
        rw [hret] at hr
        rw [hdocs]
        by_cases hK : K = doc_type
        · subst hK
          rw [dictGet_dictSet_self] at hr
          rw [setKind_self]
          exact ⟨hc, (Option.some_inj.mp hr).symm, hany⟩
        · rw [dictGet_dictSet_ne _ _ _ _ hK] at hr
          rw [setKind_ne _ _ _ _ hK]
          exact h1 K r hr
      · intro K g hg
        rw [hqa] at hg
        rw [hdocs, hgen]
        by_cases hK : K = doc_type
        · subst hK
          rw [dictGet_dictSet_self] at hg
          rw [setKind_self]
          exact ⟨hc, (Option.some_inj.mp hg).symm ▸ Nat.lt_succ_self _, hany⟩
        · rw [dictGet_dictSet_ne _ _ _ _ hK] at hg
          rw [setKind_ne _ _ _ _ hK]
          obtain ⟨hne, hlt, ha⟩ := h2 K g hg
          exact ⟨hne, Nat.lt_succ_of_lt hlt, ha⟩

theorem stateInv_process (hv : String → Bool) (env : Env)
    (st : DocumentProcessor) (fp : String)
    (h : StateInv hv st) : StateInv hv (process_file hv env st fp).1 := by
  cases hex : env.exists_file fp with
  | false => rw [process_file_not_exists hv env st fp hex]; exact h
  | true =>
    cases hk : get_loader_for_file fp with
    | error e => rw [process_file_unsupported hv env st fp e hex hk]; exact h
    | ok doc_type =>
      cases hl : env.load fp with
      | error e =>
        rw [process_file_load_error hv env st fp doc_type e hex hk hl]; exact h
      | ok rawDocs =>
        rw [process_file_ok hv env st fp doc_type rawDocs hex hk hl]
        exact stateInv_ingestStep hv st doc_type rawDocs (basename fp) h

theorem query_preserves (qenv : QueryEnv) (st : DocumentProcessor) (q : String) :
    (query qenv st q).1.documents_by_type = st.documents_by_type ∧
    (query qenv st q).1.document_metadata = st.document_metadata ∧
    (query qenv st q).1.retrievers = st.retrievers ∧
    (query qenv st q).1.qa_chains = st.qa_chains ∧
    (query qenv st q).1.chain_gen = st.chain_gen := by
  unfold query
  split
  · exact ⟨rfl, rfl, rfl, rfl, rfl⟩
  · cases hr : qenv.router q with
    | error e => simp only [hr]; exact ensure_router_fields st
    | ok raw =>
      simp only [hr]
      cases hc : qenv.chain (dispatchKind (ensure_router st) (normalizeToken raw)) q with
      | error e => simp only [hc]; exact ensure_router_fields st
      | ok answer => simp only [hc]; exact ensure_router_fields st

theorem stateInv_query (hv : String → Bool) (qenv : QueryEnv)
    (st : DocumentProcessor) (q : String)
    (h : StateInv hv st) : StateInv hv (query qenv st q).1 := by
  obtain ⟨hdocs, hmeta, hret, hqa, hgen⟩ := query_preserves qenv st q
  obtain ⟨h1, h2⟩ := h
  constructor
  · intro K r hr; rw [hret] at hr; rw [hdocs]; exact h1 K r hr
  · intro K g hg; rw [hqa] at hg; rw [hdocs, hgen]; exact h2 K g hg

/-- Every reachable processor state satisfies the maintained invariant. -/
theorem reachable_stateInv (hv : String → Bool) (st : DocumentProcessor)
    (h : Reachable hv st) : StateInv hv st := by
  induction h with
  | init => exact stateInv_init hv
  | step_process env st' fp _ ih => exact stateInv_process hv env st' fp ih
  | step_query qenv st' q _ ih => exact stateInv_query hv qenv st' q ih

/-! ## Properties of the retrieval index computation -/

theorem insertionArgsort_perm (l : List Rat) :
    (insertionArgsort l).Perm (List.range l.length) :=
  List.perm_insertionSort (idxLe l) (List.range l.length)

theorem insertionArgsort_sorted (l : List Rat) :
    (insertionArgsort l).Pairwise (idxLe l) :=
  List.sorted_insertionSort (idxLe l) (List.range l.length)

/-- The stable sort numpy runs on small arrays conforms to the general
argsort output contract. -/
theorem insertionArgsort_isArgsortOf (l : List Rat) :
    IsArgsortOf (insertionArgsort l) l := by
  refine ⟨insertionArgsort_perm l, ?_⟩
  refine (insertionArgsort_sorted l).imp ?_
  intro i j hij
  rcases hij with hlt | ⟨heq, _⟩
  · exact le_of_lt hlt
  · exact le_of_eq heq

/-- Functional characterisation of `np.argsort(sims)[-k:][::-1]` for
`0 < k ≤ |sims|`, for *every* argsort conforming to the output contract
(so independent of the implementation-defined tie order): it lists `k`
distinct valid indices, ordered by non-increasing similarity — highest
similarity first — and every omitted index has similarity at most that of
every listed index. -/
theorem topIndices_spec (srt : ArgsortFn) (sims : List Rat) (k : Nat)
    (hsrt : IsArgsortOf (srt sims) sims) (hk : 0 < k)
    (hkn : k ≤ sims.length) :
    (topIndices srt sims k).length = k ∧
    (topIndices srt sims k).Nodup ∧
    (∀ i ∈ topIndices srt sims k, i < sims.length) ∧
    (topIndices srt sims k).Pairwise (fun i j =>
      sims.getD j 0 ≤ sims.getD i 0) ∧
    (∀ j, j < sims.length → j ∉ topIndices srt sims k →
      ∀ i ∈ topIndices srt sims k, sims.getD j 0 ≤ sims.getD i 0) := by
  obtain ⟨hperm, hsort⟩ := hsrt
  have hk0 : k ≠ 0 := Nat.pos_iff_ne_zero.mp hk
  have hlen : (srt sims).length = sims.length :=
    hperm.length_eq.trans (List.length_range _)
  have htop : topIndices srt sims k =
      ((srt sims).drop ((srt sims).length - k)).reverse := by
    simp [topIndices, lastSlice, hk0]
  have hka : k ≤ (srt sims).length := by rw [hlen]; exact hkn
  have hsub : List.Sublist ((srt sims).drop ((srt sims).length - k)) (srt sims) :=
    List.drop_sublist _ _
  have hdlen : ((srt sims).drop ((srt sims).length - k)).length = k := by
    rw [List.length_drop, Nat.sub_sub_self hka]
  have hnodup : (srt sims).Nodup := hperm.symm.nodup (List.nodup_range _)
  have hmem : ∀ i ∈ srt sims, i < sims.length := fun i hi =>
    List.mem_range.mp (hperm.mem_iff.mp hi)
  refine ⟨?_, ?_, ?_, ?_, ?_⟩
  · rw [htop, List.length_reverse, hdlen]
  · rw [htop, List.nodup_reverse]
    exact hnodup.sublist hsub
  · intro i hi
    rw [htop, List.mem_reverse] at hi
    exact hmem i (hsub.subset hi)
  · rw [htop, List.pairwise_reverse]
    exact hsort.sublist hsub
  · intro j hj hjn i hi
    rw [htop, List.mem_reverse] at hi hjn
    have hja : j ∈ srt sims := hperm.mem_iff.mpr (List.mem_range.mpr hj)
    have hsplit : (srt sims).take ((srt sims).length - k) ++
        (srt sims).drop ((srt sims).length - k) = srt sims :=
      List.take_append_drop _ _
    have hp2 : ((srt sims).take ((srt sims).length - k) ++
        (srt sims).drop ((srt sims).length - k)).Pairwise
        (fun a b => sims.getD a 0 ≤ sims.getD b 0) := by
      rw [hsplit]
      exact hsort
    have hjtake : j ∈ (srt sims).take ((srt sims).length - k) := by
      rw [← hsplit] at hja
      rcases List.mem_append.mp hja with hmem' | hmem'
      · exact hmem'
      · exact absurd hmem' hjn
    exact (List.pairwise_append.mp hp2).2.2 j hjtake i hi


/-! ## Concrete instances used by counterexamples and witnesses -/

/-- A similarity oracle under which every corpus row gets the same
similarity.  Genuine TF-IDF cosine similarity behaves like this whenever
the corpus rows have pairwise identical content (e.g. duplicated CSV
rows), so the ties below are realisable by the actual code. -/
def constSim : SimFn := fun ts _ => ts.map (fun _ => (1 : Rat))

/-- Corpus unit 0: same content as `docB`, different provenance. -/
def docA : Document :=
  { page_content := "alice 30 engineer", doc_type := some "csv",
    filename := some "a.csv" }

/-- Corpus unit 1: same content as `docA`, different provenance. -/
def docB : Document :=
  { page_content := "alice 30 engineer", doc_type := some "csv",
    filename := some "b.csv" }

/-- A vocabulary predicate under which every text contributes a feature
(any text with an ordinary word does). -/
def hvAll : String → Bool := fun _ => true

/-- An ingestion oracle where every path exists and every load yields one
unit of ordinary text. -/
def envOne : Env where
  exists_file := fun _ => true
  load := fun _ => Except.ok [{ page_content := "hello world" }]
  glob := fun _ _ => []

/-- A query oracle whose router answers `" PDF \n"` and whose chains always
answer. -/
def qenvOk : QueryEnv where
  router := fun _ => Except.ok " PDF \n"
  chain := fun _ _ => Except.ok "the answer"

/-- A query oracle whose router output is a token naming no kind. -/
def qenvMiss : QueryEnv where
  router := fun _ => Except.ok "spreadsheet"
  chain := fun _ _ => Except.ok "fallback answer"

/-- A query oracle whose router raises. -/
def qenvBoom : QueryEnv where
  router := fun _ => Except.error "model quota exceeded"
  chain := fun _ _ => Except.ok "unused"

/-- A query oracle whose chain raises after a successful routing. -/
def qenvChainBoom : QueryEnv where
  router := fun _ => Except.ok "pdf"
  chain := fun _ _ => Except.error "synthesis failed"

/-- The state after ingesting `a.pdf` once from a fresh processor. -/
def stOne : DocumentProcessor := (process_file hvAll envOne initState "a.pdf").1

/-- An ingestion oracle whose loader yields one blank page, as
`PyPDFLoader` does on a scanned page. -/
def envBlank : Env where
  exists_file := fun _ => true
  load := fun _ => Except.ok [{ page_content := "" }]
  glob := fun _ _ => []

/-- A vocabulary predicate under which only nonempty texts contribute a
feature (a blank page yields no token). -/
def hvWord : String → Bool := fun s => decide (s ≠ "")

/- The modelled fit-failure path, matching the source: ingesting a
blank-page pdf into a fresh processor extends the corpus and records the
filename, then `fit_transform` raises (empty vocabulary), the exception
is caught, and `process_file` returns `false` with the mutated state —
no retriever and no chain were created. -/
example :
    (process_file hvWord envBlank initState "b.pdf").2 = false ∧
    ((process_file hvWord envBlank initState "b.pdf").1.documents_by_type
      DocType.pdf).length = 1 ∧
    (process_file hvWord envBlank initState "b.pdf").1.document_metadata
      DocType.pdf = ["b.pdf"] ∧
    dictGet (process_file hvWord envBlank initState "b.pdf").1.retrievers
      DocType.pdf = none ∧
    dictGet (process_file hvWord envBlank initState "b.pdf").1.qa_chains
      DocType.pdf = none := by decide

/-! ## Claims -/

/-- C1, counterexample: take a 2-unit corpus whose two units have identical
content (so every content-determined similarity — in particular TF-IDF
cosine similarity — gives them equal scores, as `constSim` does) and
`k = 2`.  On a 2-element array numpy's default sort is the stable
insertion sort, modelled exactly by `insertionArgsort` (first conjunct:
it conforms to the argsort output contract), so at this input the program
returns the unit with the *later* insertion index first even though the
similarities tie — contradicting the claim that on ties the earlier
corpus index appears before the later one. -/
theorem C1_tie_order_counterexample :
    IsArgsortOf
      (insertionArgsort
        (constSim (TfidfRetriever.init [docA, docB] 2).doc_texts "alice"))
      (constSim (TfidfRetriever.init [docA, docB] 2).doc_texts "alice") ∧
    (constSim (TfidfRetriever.init [docA, docB] 2).doc_texts "alice").getD 0 0 =
      (constSim (TfidfRetriever.init [docA, docB] 2).doc_texts "alice").getD 1 0 ∧
    (TfidfRetriever.init [docA, docB] 2).get_relevant_documents constSim
      insertionArgsort "alice" = [docB, docA] ∧
    docB ≠ docA :=
  ⟨insertionArgsort_isArgsortOf _, by decide, by decide, by decide⟩

/-- C1, amended: for every corpus of at least `k` units (`0 < k`), every
similarity oracle assigning one score per unit, and every argsort
conforming to `np.argsort`'s output contract (the tie order being
implementation-defined), `get_relevant_documents` returns exactly the
units at the `k` indices selected by `topIndices`: `k` distinct valid
corpus indices, ordered by non-increasing similarity — highest similarity
first — such that every unselected index has similarity at most that of
every selected one.  The relative order of equal-similarity units is not
specified (and on small corpora, where numpy's sort is stable, it is the
*later*-index-first order — see the counterexample). -/
theorem C1_topk_amended (docs : List Document) (k : Nat) (sim : SimFn)
    (srt : ArgsortFn) (q : String) (hk : 0 < k)
    (hsim : (sim (docs.map (fun d => d.page_content)) q).length = docs.length)
    (hkn : k ≤ docs.length)
    (hsrt : IsArgsortOf (srt (sim (docs.map (fun d => d.page_content)) q))
      (sim (docs.map (fun d => d.page_content)) q)) :
    let sims := sim (docs.map (fun d => d.page_content)) q
    (TfidfRetriever.init docs k).get_relevant_documents sim srt q =
      (topIndices srt sims k).map (fun i => docs.getD i default) ∧
    (topIndices srt sims k).length = k ∧
    (topIndices srt sims k).Nodup ∧
    (∀ i ∈ topIndices srt sims k, i < docs.length) ∧
    (topIndices srt sims k).Pairwise (fun i j =>
      sims.getD j 0 ≤ sims.getD i 0) ∧
    (∀ j, j < docs.length → j ∉ topIndices srt sims k →
      ∀ i ∈ topIndices srt sims k, sims.getD j 0 ≤ sims.getD i 0) := by
  intro sims
  have hsim' : sims.length = docs.length := hsim
  have hkn' : k ≤ sims.length := by omega
  obtain ⟨h1, h2, h3, h4, h5⟩ := topIndices_spec srt sims k hsrt hk hkn'
  refine ⟨rfl, h1, h2, ?_, h4, ?_⟩
  · intro i hi
    have := h3 i hi
    omega
  · intro j hj hjn i hi
    exact h5 j (by omega) hjn i hi

theorem C1_topk_amended_witness :
    (0 < 1 ∧ 1 ≤ ([docA, docB] : List Document).length) ∧
    (TfidfRetriever.init [docA, docB] 1).get_relevant_documents constSim
      insertionArgsort "alice" =
      (topIndices insertionArgsort
        (constSim ([docA, docB].map (fun d => d.page_content)) "alice") 1).map
        (fun i => [docA, docB].getD i default) :=
  ⟨⟨by decide, by decide⟩,
   (C1_topk_amended [docA, docB] 1 constSim insertionArgsort "alice"
     (by decide) rfl (by decide) (insertionArgsort_isArgsortOf _)).1⟩

/-- C2: when no QA chain exists for any kind, `query` immediately returns
the structured not-initialized failure, leaves the state untouched, and
performs no external invocation at all — no routing and no retrieval. -/
theorem C2_query_not_initialized (qenv : QueryEnv) (st : DocumentProcessor)
    (q : String) (h : st.qa_chains = []) :
    query qenv st q = (st, QueryResult.err notInitializedMsg, []) := by
  unfold query
  rw [if_pos h]

theorem C2_query_not_initialized_witness :
    initState.qa_chains = [] ∧
    query qenvOk initState "anything" =
      (initState, QueryResult.err notInitializedMsg, []) :=
  ⟨rfl, C2_query_not_initialized qenvOk initState "anything" rfl⟩

theorem dispatchKind_ensure (st : DocumentProcessor) (t : String) :
    dispatchKind (ensure_router st) t = dispatchKind st t := by
  unfold dispatchKind
  rw [(ensure_router_fields st).2.2.2.1]

/-- A state with at least one QA chain dispatches the fallback to a kind
that really has a chain: the first key of the nonempty `qa_chains` dict. -/
theorem head_qa_chain_exists (st : DocumentProcessor) (h : st.qa_chains ≠ []) :
    dictGet st.qa_chains (st.qa_chains.headD (DocType.pdf, 0)).1 ≠ none := by
  cases hq : st.qa_chains with
  | nil => exact absurd hq h
  | cons p ps => simp [dictGet]

/-- C3: with at least one QA chain present, if the router's trimmed and
lowercased output names no kind with an existing chain, `query` silently
dispatches to the first kind in `qa_chains` iteration order — a kind that
does have a chain — and, when that chain's synthesis succeeds, returns the
success result carrying that kind; a classification miss alone never
produces a failure result. -/
theorem C3_router_fallback (qenv : QueryEnv) (st : DocumentProcessor)
    (q raw ans : String)
    (hne : st.qa_chains ≠ [])
    (hr : qenv.router q = Except.ok raw)
    (hmiss : st.qa_chains.find?
      (fun p => decide (kindStr p.1 = normalizeToken raw)) = none)
    (hchain : qenv.chain (st.qa_chains.headD (DocType.pdf, 0)).1 q = Except.ok ans) :
    (query qenv st q).2.1 =
      QueryResult.ok ans (kindStr (st.qa_chains.headD (DocType.pdf, 0)).1) q ∧
    dictGet st.qa_chains (st.qa_chains.headD (DocType.pdf, 0)).1 ≠ none := by
  refine ⟨?_, head_qa_chain_exists st hne⟩
  unfold query
  rw [if_neg hne]
  simp only [hr]
  rw [dispatchKind_ensure]
  unfold dispatchKind
  rw [hmiss]
  simp only [hchain]

/-- A state whose only QA chain belongs to kind `docx`. -/
def stDocx : DocumentProcessor := { initState with qa_chains := [(DocType.docx, 0)] }

theorem C3_router_fallback_witness :
    stDocx.qa_chains ≠ [] ∧
    (query qenvMiss stDocx "total sales?").2.1 =
      QueryResult.ok "fallback answer" "docx" "total sales?" :=
  ⟨by decide,
   (C3_router_fallback qenvMiss stDocx "total sales?" "spreadsheet"
     "fallback answer" (by decide) rfl (by decide) rfl).1⟩

/-- C4: with at least one QA chain present, an exception raised by the
router (classification) or by the dispatched QA chain (synthesis) is
caught and surfaced as the structured failure `err e`; and in every case
`query` returns structured data — one of the two result shapes — never a
propagated exception. -/
theorem C4_query_catches (qenv : QueryEnv) (st : DocumentProcessor) (q : String)
    (hne : st.qa_chains ≠ []) :
    (∀ e, qenv.router q = Except.error e →
      (query qenv st q).2.1 = QueryResult.err e) ∧
    (∀ raw e, qenv.router q = Except.ok raw →
      qenv.chain (dispatchKind st (normalizeToken raw)) q = Except.error e →
      (query qenv st q).2.1 = QueryResult.err e) ∧
    ((∃ a d, (query qenv st q).2.1 = QueryResult.ok a d q) ∨
     (∃ e, (query qenv st q).2.1 = QueryResult.err e)) := by
  refine ⟨?_, ?_, ?_⟩
  · intro e he
    unfold query
    rw [if_neg hne]
    simp only [he]
  · intro raw e hr hc
    unfold query
    rw [if_neg hne]
    simp only [hr, dispatchKind_ensure]
    rw [show qenv.chain (dispatchKind st (normalizeToken raw)) q = Except.error e
      from hc]
  · unfold query
    rw [if_neg hne]
    cases hr : qenv.router q with
    | error e => exact Or.inr ⟨e, rfl⟩
    | ok raw =>
      simp only
      cases hc : qenv.chain (dispatchKind (ensure_router st) (normalizeToken raw)) q with
      | error e => simp only [hc]; exact Or.inr ⟨e, rfl⟩
      | ok ans =>
        simp only [hc]
        exact Or.inl ⟨ans, kindStr (dispatchKind (ensure_router st) (normalizeToken raw)), rfl⟩

theorem C4_query_catches_witness :
    stDocx.qa_chains ≠ [] ∧
    (query qenvBoom stDocx "hi").2.1 = QueryResult.err "model quota exceeded" :=
  ⟨by decide,
   (C4_query_catches qenvBoom stDocx "hi" (by decide)).1 "model quota exceeded" rfl⟩

/-- C5: an existing file whose extension is none of pdf/docx/csv makes
`process_file` fail — the raised unsupported-extension `ValueError` (the
spec's `UnsupportedKindError`) is caught and converted to `false` — with
the whole state (every corpus, metadata list, retriever and chain)
unchanged, and a batch beginning with such a file processes the remaining
files exactly as if the unsupported file were absent.  (This raise
happens in `_get_loader_for_file`, before any mutation.) -/
theorem C5_unsupported_extension (hv : String → Bool) (env : Env)
    (st : DocumentProcessor) (fp e : String)
    (hex : env.exists_file fp = true)
    (hun : get_loader_for_file fp = Except.error e) :
    process_file hv env st fp = (st, false) ∧
    (∀ fs, processFiles hv env st (fp :: fs) = processFiles hv env st fs) := by
  have h1 := process_file_unsupported hv env st fp e hex hun
  refine ⟨h1, ?_⟩
  intro fs
  simp [processFiles, h1]

theorem C5_unsupported_extension_witness :
    envOne.exists_file "notes.txt" = true ∧
    process_file hvAll envOne initState "notes.txt" = (initState, false) ∧
    processFiles hvAll envOne initState ["notes.txt", "a.pdf"] =
      processFiles hvAll envOne initState ["a.pdf"] := by
  have h := C5_unsupported_extension hvAll envOne initState "notes.txt"
    "Unsupported file extension: txt" rfl (by decide)
  exact ⟨rfl, h.1, h.2 ["a.pdf"]⟩

/-- C6, counterexample: ingesting the same pdf twice from a fresh state,
the pdf QA chain after the first ingestion is the object with creation
stamp 0, but after the second successful ingestion the stored chain has
creation stamp 1 — `_rebuild_retriever` unconditionally re-creates the
chain, so the existing Pipeline object is replaced, not left in place. -/
theorem C6_chain_recreated_counterexample :
    dictGet stOne.qa_chains DocType.pdf = some 0 ∧
    (process_file hvAll envOne stOne "a.pdf").2 = true ∧
    dictGet (process_file hvAll envOne stOne "a.pdf").1.qa_chains DocType.pdf =
      some 1 := by decide

/-- C6 (amended): the QA chain for a kind is created the first time the
kind acquires at least one TextUnit, and on every later *successful*
ingestion for that kind it is *re-created* — replaced by a freshly
constructed chain object (a creation stamp distinct from that of every
chain existing before) — while the chains of all other kinds are left
untouched.  (An ingestion whose `fit_transform` raises creates or
replaces nothing: see `ingestStep_fit_fail`.) -/
theorem C6_chain_recreation_amended (hv : String → Bool) (env : Env)
    (st : DocumentProcessor) (fp : String) (doc_type : DocType)
    (rawDocs : List Document)
    (hreach : Reachable hv st)
    (hex : env.exists_file fp = true)
    (hk : get_loader_for_file fp = Except.ok doc_type)
    (hl : env.load fp = Except.ok rawDocs)
    (hne : rawDocs ≠ [])
    (hsucc : (process_file hv env st fp).2 = true) :
    dictGet (process_file hv env st fp).1.qa_chains doc_type = some st.chain_gen ∧
    (∀ g0, dictGet st.qa_chains doc_type = some g0 → g0 ≠ st.chain_gen) ∧
    (∀ K, K ≠ doc_type →
      dictGet (process_file hv env st fp).1.qa_chains K = dictGet st.qa_chains K) ∧
    (process_file hv env st fp).1.chain_gen = st.chain_gen + 1 := by
  have hcorp : st.documents_by_type doc_type ++
      tagDocs rawDocs doc_type (basename fp) ≠ [] := by
    intro hnil
    rcases List.append_eq_nil.mp hnil with ⟨_, h2⟩
    exact hne (List.map_eq_nil_iff.mp h2)
  rw [process_file_ok hv env st fp doc_type rawDocs hex hk hl] at hsucc ⊢
  have hfit := ingestStep_success_fit hv st doc_type rawDocs (basename fp)
    hcorp hsucc
  obtain ⟨_, hdocs, hmeta, hret, hqa, hgen⟩ :=
    ingestStep_spec hv st doc_type rawDocs (basename fp) hcorp hfit
  refine ⟨?_, ?_, ?_, ?_⟩
  · rw [hqa, dictGet_dictSet_self]
  · intro g0 hg0
    obtain ⟨_, hlt, _⟩ := (reachable_stateInv hv st hreach).2 doc_type g0 hg0
    exact Nat.ne_of_lt hlt
  · intro K hK
    rw [hqa, dictGet_dictSet_ne _ _ _ _ hK]
  · exact hgen

theorem C6_chain_recreation_amended_witness :
    (process_file hvAll envOne stOne "a.pdf").2 = true ∧
    dictGet (process_file hvAll envOne stOne "a.pdf").1.qa_chains DocType.pdf =
      some stOne.chain_gen ∧
    (∀ g0, dictGet stOne.qa_chains DocType.pdf = some g0 → g0 ≠ stOne.chain_gen) := by
  have h := C6_chain_recreation_amended hvAll envOne stOne "a.pdf" DocType.pdf
    [{ page_content := "hello world" }]
    (Reachable.step_process envOne initState "a.pdf" Reachable.init)
    rfl (by decide) rfl (by decide) (by decide)
  exact ⟨by decide, h.1, h.2.1⟩

/-- C7: (a) in every reachable state, every stored retriever is exactly the
TF-IDF retriever fitted from scratch over the kind's full current corpus —
its fitted texts are the corpus elements' contents in order, so index row
`i` corresponds to corpus element `i` — hence no query is ever answered
against an index over a strict subset of a corpus (a later `fit_transform`
failure cannot leave a stale retriever behind, because the kind's earlier
successful fit means some corpus text bears vocabulary, which the
append-only corpus keeps); and (b) after every *successful* `process_file`
appending at least one unit to kind `K`, the retriever for `K` exists and
is fitted over the full extended corpus (old units followed by the new
units). -/
theorem C7_index_sync (hv : String → Bool) (st : DocumentProcessor)
    (hreach : Reachable hv st) :
    (∀ K r, dictGet st.retrievers K = some r →
      r = TfidfRetriever.init (st.documents_by_type K) (kFor K) ∧
      r.doc_texts = (st.documents_by_type K).map (fun d => d.page_content)) ∧
    (∀ env fp doc_type rawDocs,
      env.exists_file fp = true →
      get_loader_for_file fp = Except.ok doc_type →
      env.load fp = Except.ok rawDocs →
      rawDocs ≠ [] →
      (process_file hv env st fp).2 = true →
      (process_file hv env st fp).1.documents_by_type doc_type =
        st.documents_by_type doc_type ++ tagDocs rawDocs doc_type (basename fp) ∧
      dictGet (process_file hv env st fp).1.retrievers doc_type =
        some (TfidfRetriever.init
          ((process_file hv env st fp).1.documents_by_type doc_type)
          (kFor doc_type))) := by
  constructor
  · intro K r hr
    obtain ⟨_, heq, _⟩ := (reachable_stateInv hv st hreach).1 K r hr
    exact ⟨heq, by rw [heq]; rfl⟩
  · intro env fp doc_type rawDocs hex hk hl hne hsucc
    have hcorp : st.documents_by_type doc_type ++
        tagDocs rawDocs doc_type (basename fp) ≠ [] := by
      intro hnil
      rcases List.append_eq_nil.mp hnil with ⟨_, h2⟩
      exact hne (List.map_eq_nil_iff.mp h2)
    rw [process_file_ok hv env st fp doc_type rawDocs hex hk hl] at hsucc ⊢
    have hfit := ingestStep_success_fit hv st doc_type rawDocs (basename fp)
      hcorp hsucc
    obtain ⟨_, hdocs, hmeta, hret, hqa, hgen⟩ :=
      ingestStep_spec hv st doc_type rawDocs (basename fp) hcorp hfit
    have hdocK : (ingestStep hv st doc_type rawDocs (basename fp)).1.documents_by_type
        doc_type =
        st.documents_by_type doc_type ++ tagDocs rawDocs doc_type (basename fp) := by
      rw [hdocs, setKind_self]
    refine ⟨hdocK, ?_⟩
    rw [hret, dictGet_dictSet_self, hdocK]

theorem C7_index_sync_witness :
    dictGet stOne.retrievers DocType.pdf =
      some (TfidfRetriever.init (stOne.documents_by_type DocType.pdf)
        (kFor DocType.pdf)) := by
  have h := (C7_index_sync hvAll initState Reachable.init).2 envOne "a.pdf"
    DocType.pdf [{ page_content := "hello world" }] rfl (by decide) rfl
    (by decide) (by decide)
  exact h.2

theorem processFiles_append (hv : String → Bool) (env : Env)
    (st : DocumentProcessor) (l1 l2 : List String) :
    processFiles hv env st (l1 ++ l2) =
      ((processFiles hv env (processFiles hv env st l1).1 l2).1,
       (processFiles hv env st l1).2 +
         (processFiles hv env (processFiles hv env st l1).1 l2).2) := by
  induction l1 generalizing st with
  | nil => simp [processFiles]
  | cons f fs ih => simp [processFiles, ih, Nat.add_assoc]

/-- C8: ingesting the batch {x, y} and then the batch {z} produces exactly
the same final state — in particular the same per-kind corpus contents,
hence the same per-kind index membership — as ingesting {x, y, z} in a
single batch. -/
theorem C8_batch_equivalence (hv : String → Bool) (env : Env)
    (st : DocumentProcessor) (x y z : String) :
    (processFiles hv env (processFiles hv env st [x, y]).1 [z]).1 =
      (processFiles hv env st [x, y, z]).1 ∧
    (∀ K, ((processFiles hv env (processFiles hv env st [x, y]).1
          [z]).1.documents_by_type K).map (fun d => d.page_content) =
        ((processFiles hv env st [x, y, z]).1.documents_by_type K).map
          (fun d => d.page_content)) := by
  have h : ([x, y] ++ [z] : List String) = [x, y, z] := rfl
  have happ := processFiles_append hv env st [x, y] [z]
  constructor
  · rw [← h, happ]
  · intro K
    rw [← h, happ]

/-- C9: in every reachable state, a kind whose corpus is empty has neither
a retriever nor a QA chain, and every retriever ever stored was fitted
over a nonempty text list — the TF-IDF fit over an empty document list is
unreachable. -/
theorem C9_empty_corpus_guard (hv : String → Bool) (st : DocumentProcessor)
    (hreach : Reachable hv st)
    (K : DocType) (hempty : st.documents_by_type K = []) :
    dictGet st.retrievers K = none ∧
    dictGet st.qa_chains K = none ∧
    (∀ K' r, dictGet st.retrievers K' = some r → r.doc_texts ≠ []) := by
  obtain ⟨h1, h2⟩ := reachable_stateInv hv st hreach
  refine ⟨?_, ?_, ?_⟩
  · cases hr : dictGet st.retrievers K with
    | none => rfl
    | some r => exact absurd hempty (h1 K r hr).1
  · cases hg : dictGet st.qa_chains K with
    | none => rfl
    | some g => exact absurd hempty (h2 K g hg).1
  · intro K' r hr
    obtain ⟨hne, heq, _⟩ := h1 K' r hr
    simp only [heq, TfidfRetriever.init]
    intro hmap
    exact hne (List.map_eq_nil_iff.mp hmap)

theorem C9_empty_corpus_guard_witness :
    initState.documents_by_type DocType.pdf = [] ∧
    dictGet initState.retrievers DocType.pdf = none ∧
    dictGet initState.qa_chains DocType.pdf = none :=
  ⟨rfl, (C9_empty_corpus_guard hvAll initState Reachable.init DocType.pdf rfl).1,
    (C9_empty_corpus_guard hvAll initState Reachable.init DocType.pdf rfl).2.1⟩

/-- C10: a second *successful* ingestion of a file whose basename was
already recorded for its kind appends that file's units to the corpus
again — the corpus and the refit index grow — while the per-kind metadata
lists, hence `get_document_count` for every kind and
`get_total_document_count`, stay unchanged: the counts count distinct
filenames, not ingestions or units. -/
theorem C10_duplicate_filename (hv : String → Bool) (env : Env)
    (st : DocumentProcessor) (fp : String) (doc_type : DocType)
    (rawDocs : List Document)
    (hex : env.exists_file fp = true)
    (hk : get_loader_for_file fp = Except.ok doc_type)
    (hl : env.load fp = Except.ok rawDocs)
    (hne : rawDocs ≠ [])
    (hdup : basename fp ∈ st.document_metadata doc_type)
    (hsucc : (process_file hv env st fp).2 = true) :
    (process_file hv env st fp).1.documents_by_type doc_type =
      st.documents_by_type doc_type ++ tagDocs rawDocs doc_type (basename fp) ∧
    ((process_file hv env st fp).1.documents_by_type doc_type).length =
      (st.documents_by_type doc_type).length + rawDocs.length ∧
    dictGet (process_file hv env st fp).1.retrievers doc_type =
      some (TfidfRetriever.init
        (st.documents_by_type doc_type ++ tagDocs rawDocs doc_type (basename fp))
        (kFor doc_type)) ∧
    (process_file hv env st fp).1.document_metadata = st.document_metadata ∧
    (∀ K, get_document_count (process_file hv env st fp).1 K =
      get_document_count st K) ∧
    get_total_document_count (process_file hv env st fp).1 =
      get_total_document_count st := by
  have hcorp : st.documents_by_type doc_type ++
      tagDocs rawDocs doc_type (basename fp) ≠ [] := by
    intro hnil
    rcases List.append_eq_nil.mp hnil with ⟨_, h2⟩
    exact hne (List.map_eq_nil_iff.mp h2)
  rw [process_file_ok hv env st fp doc_type rawDocs hex hk hl] at hsucc ⊢
  have hfit := ingestStep_success_fit hv st doc_type rawDocs (basename fp)
    hcorp hsucc
  obtain ⟨_, hdocs, hmeta, hret, hqa, hgen⟩ :=
    ingestStep_spec hv st doc_type rawDocs (basename fp) hcorp hfit
  have hmeta' : (ingestStep hv st doc_type rawDocs (basename fp)).1.document_metadata =
      st.document_metadata := by
    rw [hmeta, if_pos hdup]
  have hdocK : (ingestStep hv st doc_type rawDocs (basename fp)).1.documents_by_type
      doc_type =
      st.documents_by_type doc_type ++ tagDocs rawDocs doc_type (basename fp) := by
    rw [hdocs, setKind_self]
  refine ⟨hdocK, ?_, ?_, hmeta', ?_, ?_⟩
  · rw [hdocK, List.length_append, tagDocs, List.length_map]
  · rw [hret, dictGet_dictSet_self]
  · intro K
    unfold get_document_count
    rw [hmeta']
  · unfold get_total_document_count get_document_count
    rw [hmeta']

theorem C10_duplicate_filename_witness :
    basename "a.pdf" ∈ stOne.document_metadata DocType.pdf ∧
    (process_file hvAll envOne stOne "a.pdf").2 = true ∧
    (∀ K, get_document_count (process_file hvAll envOne stOne "a.pdf").1 K =
      get_document_count stOne K) ∧
    ((process_file hvAll envOne stOne "a.pdf").1.documents_by_type DocType.pdf).length =
      (stOne.documents_by_type DocType.pdf).length +
        ([{ page_content := "hello world" }] : List Document).length := by
  have h := C10_duplicate_filename hvAll envOne stOne "a.pdf" DocType.pdf
    [{ page_content := "hello world" }] rfl (by decide) rfl (by decide)
    (by decide) (by decide)
  exact ⟨by decide, by decide, h.2.2.2.2.1, h.2.1⟩
